import Mathlib

/-!
Verification of the Bitruvius posing system core: a shallow embedding of the
pose model, the pose interpolator and deviation metric, the forward-kinematics
joint resolver, the two-bone IK solver, the corrective-pivot bone transform,
the frame-sequence/history state machine, and the playback scheduler.
JavaScript numbers are modelled by the real numbers.
-/

noncomputable section

open Real

/-- Two-dimensional point or vector, mirroring the source records with x and y. -/
@[ext]
structure Vec2 where
  x : ℝ
  y : ℝ

/-- Componentwise vector addition, mirroring addVec in kinematics.ts. -/
def addVec (v1 v2 : Vec2) : Vec2 := ⟨v1.x + v2.x, v1.y + v2.y⟩

/-- The Pose record from types.ts and constants.ts: the root transform plus one
rotation angle (in degrees) per joint; shoulders and thighs additionally carry
corrective angles. rootRotation is set by every pose the program builds, so it
is embedded as a plain field (the JavaScript guard against a missing value is
the identity here). -/
@[ext]
structure Pose where
  root : Vec2
  rootRotation : ℝ
  hips : ℝ
  torso : ℝ
  neck : ℝ
  lShoulder : ℝ
  lBicepCorrective : ℝ
  lForearm : ℝ
  lWrist : ℝ
  rShoulder : ℝ
  rBicepCorrective : ℝ
  rForearm : ℝ
  rWrist : ℝ
  lThigh : ℝ
  lThighCorrective : ℝ
  lCalf : ℝ
  lAnkle : ℝ
  lToes : ℝ
  rThigh : ℝ
  rThighCorrective : ℝ
  rCalf : ℝ
  rAnkle : ℝ
  rToes : ℝ

/-- The factory default state from constants.ts (T-pose baseline). -/
def DEFAULT_POSE : Pose where
  root := ⟨0, 0⟩
  rootRotation := 0
  hips := 0
  torso := 180
  neck := 0
  lShoulder := 0
  lBicepCorrective := -12
  lForearm := 0
  lWrist := 0
  rShoulder := 0
  rBicepCorrective := 12
  rForearm := 0
  rWrist := 0
  lThigh := 0
  lThighCorrective := 5
  lCalf := 0
  lAnkle := 0
  lToes := 0
  rThigh := 0
  rThighCorrective := -5
  rCalf := 0
  rAnkle := 0
  rToes := 0

/-- Linear blend from kinematics.ts: start * (1 - t) + stop * t. -/
def lerp (start stop t : ℝ) : ℝ := start * (1 - t) + stop * t

/-- The clamping of the interpolation factor in interpolatePose:
Math.max(0, Math.min(1, t)). -/
def clamp01 (t : ℝ) : ℝ := max 0 (min 1 t)

/-- interpolatePose from kinematics.ts: clamp t, then lerp the root position,
the root rotation, and every other numeric field of the pose independently. -/
def interpolatePose (poseA poseB : Pose) (t : ℝ) : Pose :=
  let clampedT := clamp01 t
  { root := ⟨lerp poseA.root.x poseB.root.x clampedT,
             lerp poseA.root.y poseB.root.y clampedT⟩
    rootRotation := lerp poseA.rootRotation poseB.rootRotation clampedT
    hips := lerp poseA.hips poseB.hips clampedT
    torso := lerp poseA.torso poseB.torso clampedT
    neck := lerp poseA.neck poseB.neck clampedT
    lShoulder := lerp poseA.lShoulder poseB.lShoulder clampedT
    lBicepCorrective := lerp poseA.lBicepCorrective poseB.lBicepCorrective clampedT
    lForearm := lerp poseA.lForearm poseB.lForearm clampedT
    lWrist := lerp poseA.lWrist poseB.lWrist clampedT
    rShoulder := lerp poseA.rShoulder poseB.rShoulder clampedT
    rBicepCorrective := lerp poseA.rBicepCorrective poseB.rBicepCorrective clampedT
    rForearm := lerp poseA.rForearm poseB.rForearm clampedT
    rWrist := lerp poseA.rWrist poseB.rWrist clampedT
    lThigh := lerp poseA.lThigh poseB.lThigh clampedT
    lThighCorrective := lerp poseA.lThighCorrective poseB.lThighCorrective clampedT
    lCalf := lerp poseA.lCalf poseB.lCalf clampedT
    lAnkle := lerp poseA.lAnkle poseB.lAnkle clampedT
    lToes := lerp poseA.lToes poseB.lToes clampedT
    rThigh := lerp poseA.rThigh poseB.rThigh clampedT
    rThighCorrective := lerp poseA.rThighCorrective poseB.rThighCorrective clampedT
    rCalf := lerp poseA.rCalf poseB.rCalf clampedT
    rAnkle := lerp poseA.rAnkle poseB.rAnkle clampedT
    rToes := lerp poseA.rToes poseB.rToes clampedT }

/-- Specification-side interpolation: clamp t to the unit interval and compute
every scalar field as a + (b - a) * t, as the specification words it. -/
def interpolateSpecified (poseA poseB : Pose) (t : ℝ) : Pose :=
  let s := clamp01 t
  { root := ⟨poseA.root.x + (poseB.root.x - poseA.root.x) * s,
             poseA.root.y + (poseB.root.y - poseA.root.y) * s⟩
    rootRotation := poseA.rootRotation + (poseB.rootRotation - poseA.rootRotation) * s
    hips := poseA.hips + (poseB.hips - poseA.hips) * s
    torso := poseA.torso + (poseB.torso - poseA.torso) * s
    neck := poseA.neck + (poseB.neck - poseA.neck) * s
    lShoulder := poseA.lShoulder + (poseB.lShoulder - poseA.lShoulder) * s
    lBicepCorrective :=
      poseA.lBicepCorrective + (poseB.lBicepCorrective - poseA.lBicepCorrective) * s
    lForearm := poseA.lForearm + (poseB.lForearm - poseA.lForearm) * s
    lWrist := poseA.lWrist + (poseB.lWrist - poseA.lWrist) * s
    rShoulder := poseA.rShoulder + (poseB.rShoulder - poseA.rShoulder) * s
    rBicepCorrective :=
      poseA.rBicepCorrective + (poseB.rBicepCorrective - poseA.rBicepCorrective) * s
    rForearm := poseA.rForearm + (poseB.rForearm - poseA.rForearm) * s
    rWrist := poseA.rWrist + (poseB.rWrist - poseA.rWrist) * s
    lThigh := poseA.lThigh + (poseB.lThigh - poseA.lThigh) * s
    lThighCorrective :=
      poseA.lThighCorrective + (poseB.lThighCorrective - poseA.lThighCorrective) * s
    lCalf := poseA.lCalf + (poseB.lCalf - poseA.lCalf) * s
    lAnkle := poseA.lAnkle + (poseB.lAnkle - poseA.lAnkle) * s
    lToes := poseA.lToes + (poseB.lToes - poseA.lToes) * s
    rThigh := poseA.rThigh + (poseB.rThigh - poseA.rThigh) * s
    rThighCorrective :=
      poseA.rThighCorrective + (poseB.rThighCorrective - poseA.rThighCorrective) * s
    rCalf := poseA.rCalf + (poseB.rCalf - poseA.rCalf) * s
    rAnkle := poseA.rAnkle + (poseB.rAnkle - poseA.rAnkle) * s
    rToes := poseA.rToes + (poseB.rToes - poseA.rToes) * s }

/-- getMaxPoseDeviation from kinematics.ts: the largest change across all
comparable fields, with the root position compared by euclidean distance and
every angle by absolute difference. -/
def getMaxPoseDeviation (poseA poseB : Pose) : ℝ :=
  let dx := poseA.root.x - poseB.root.x
  let dy := poseA.root.y - poseB.root.y
  let rootDist := Real.sqrt (dx * dx + dy * dy)
  max (max (max (max (max (max (max (max (max (max (max (max (max (max (max (max
    (max (max (max (max (max (max (max 0 rootDist)
    |poseA.rootRotation - poseB.rootRotation|)
    |poseA.hips - poseB.hips|)
    |poseA.torso - poseB.torso|)
    |poseA.neck - poseB.neck|)
    |poseA.lShoulder - poseB.lShoulder|)
    |poseA.lBicepCorrective - poseB.lBicepCorrective|)
    |poseA.lForearm - poseB.lForearm|)
    |poseA.lWrist - poseB.lWrist|)
    |poseA.rShoulder - poseB.rShoulder|)
    |poseA.rBicepCorrective - poseB.rBicepCorrective|)
    |poseA.rForearm - poseB.rForearm|)
    |poseA.rWrist - poseB.rWrist|)
    |poseA.lThigh - poseB.lThigh|)
    |poseA.lThighCorrective - poseB.lThighCorrective|)
    |poseA.lCalf - poseB.lCalf|)
    |poseA.lAnkle - poseB.lAnkle|)
    |poseA.lToes - poseB.lToes|)
    |poseA.rThigh - poseB.rThigh|)
    |poseA.rThighCorrective - poseB.rThighCorrective|)
    |poseA.rCalf - poseB.rCalf|)
    |poseA.rAnkle - poseB.rAnkle|)
    |poseA.rToes - poseB.rToes|

/-- C9: interpolatePose first clamps t to the unit interval and then computes
every scalar field independently as a + (b - a) * t; at t = 0 it returns the
first pose and at t = 1 the second pose, field by field, and an out-of-range t
is clamped rather than rejected. -/
theorem interpolatePose_clamped_lerp_endpoints (A B : Pose) (t : ℝ) :
    interpolatePose A B t = interpolateSpecified A B t ∧
    interpolatePose A B 0 = A ∧
    interpolatePose A B 1 = B := by
  refine ⟨?_, ?_, ?_⟩
  · ext <;> simp [interpolatePose, interpolateSpecified, lerp] <;> ring
  · have h0 : clamp01 (0 : ℝ) = 0 := by
      simp [clamp01]
    ext <;> simp [interpolatePose, h0, lerp]
  · have h1 : clamp01 (1 : ℝ) = 1 := by
      simp [clamp01]
    ext <;> simp [interpolatePose, h1, lerp]

/-! The anatomy and rigging constants from constants.ts. -/

/-- One head unit in pixels (scaling factor). -/
def HEAD_UNIT : ℝ := 40

namespace ANATOMY

def HEAD : ℝ := 1.0 * HEAD_UNIT

def NECK : ℝ := 0.5 * HEAD_UNIT

def TORSO : ℝ := 2.6 * HEAD_UNIT

def PELVIS : ℝ := 2.0 * HEAD_UNIT

def UPPER_ARM : ℝ := 2.0 * HEAD_UNIT

def LOWER_ARM : ℝ := 2.0 * HEAD_UNIT

def HAND : ℝ := 0.8 * HEAD_UNIT

def LEG_UPPER : ℝ := 2.5 * HEAD_UNIT

def LEG_LOWER : ℝ := 2.5 * HEAD_UNIT

def FOOT : ℝ := 0.6 * HEAD_UNIT

def TOES : ℝ := 0.4 * HEAD_UNIT

def SHOULDER_WIDTH : ℝ := 2.0 * HEAD_UNIT

def HIP_WIDTH : ℝ := 1.8 * HEAD_UNIT

end ANATOMY

namespace RIGGING

def SHOULDER_INSET : ℝ := 5

def SHOULDER_LIFT : ℝ := -12

def CLAVICLE_EXTENSION : ℝ := 0.5 * HEAD_UNIT

end RIGGING

/-- Degrees to radians, as in kinematics.ts: deg * PI / 180. -/
def rad (deg : ℝ) : ℝ := deg * Real.pi / 180

/-- Planar vector rotation by an angle in degrees, from kinematics.ts. -/
def rotateVec (x y angleDeg : ℝ) : Vec2 :=
  let r := rad angleDeg
  let c := Real.cos r
  let s := Real.sin r
  ⟨x * c - y * s, x * s + y * c⟩

/-- The per-leg joint positions computed inside getJointPositions
(getLegJoints in kinematics.ts). -/
structure LegJoints where
  hip : Vec2
  knee : Vec2
  ankle : Vec2
  toeBase : Vec2
  toeTip : Vec2

/-- The per-arm joint positions computed inside getJointPositions
(getArmJoints in kinematics.ts). -/
structure ArmJoints where
  shoulder : Vec2
  elbow : Vec2
  wrist : Vec2
  handTip : Vec2

/-- The joint-position map returned by getJointPositions. -/
structure JointPositions where
  lHip : Vec2
  rHip : Vec2
  lKnee : Vec2
  rKnee : Vec2
  lAnkle : Vec2
  rAnkle : Vec2
  lToeTip : Vec2
  rToeTip : Vec2
  neckBase : Vec2
  headTop : Vec2
  lShoulder : Vec2
  rShoulder : Vec2
  lElbow : Vec2
  rElbow : Vec2
  lWrist : Vec2
  rWrist : Vec2

/-- getLegJoints from kinematics.ts: hip, knee, ankle, foot and toe positions
of one leg, accumulating the pelvis global angle with the local leg angles and
the fixed ankle base offset of minus ninety degrees on the right and plus
ninety on the left. -/
def getLegJoints (pose : Pose) (isRight : Bool) : LegJoints :=
  let rootRotation := pose.rootRotation
  let globalAnglePelvis := rootRotation + pose.hips
  let pelvisVec := rotateVec 0 ANATOMY.PELVIS globalAnglePelvis
  let pelvisEnd := addVec pose.root pelvisVec
  let thighAngle := if isRight then pose.rThigh else pose.lThigh
  let calfAngle := if isRight then pose.rCalf else pose.lCalf
  let ankleAngle := if isRight then pose.rAnkle else pose.lAnkle
  let toesAngle := if isRight then pose.rToes else pose.lToes
  let hipOffsetX := if isRight then ANATOMY.HIP_WIDTH / 4 else -(ANATOMY.HIP_WIDTH / 4)
  let hipOffsetVec := rotateVec hipOffsetX 0 globalAnglePelvis
  let hipJoint := addVec pelvisEnd hipOffsetVec
  let angleThighGlobal := globalAnglePelvis + thighAngle
  let thighVec := rotateVec 0 ANATOMY.LEG_UPPER angleThighGlobal
  let kneeJoint := addVec hipJoint thighVec
  let angleCalfGlobal := angleThighGlobal + calfAngle
  let calfVec := rotateVec 0 ANATOMY.LEG_LOWER angleCalfGlobal
  let ankleJoint := addVec kneeJoint calfVec
  let footBaseAngle : ℝ := if isRight then -90 else 90
  let angleFootGlobal := angleCalfGlobal + footBaseAngle + ankleAngle
  let footVec := rotateVec 0 ANATOMY.FOOT angleFootGlobal
  let toeBase := addVec ankleJoint footVec
  let angleToesGlobal := angleFootGlobal + toesAngle
  let toesVec := rotateVec 0 ANATOMY.TOES angleToesGlobal
  let toeTip := addVec toeBase toesVec
  ⟨hipJoint, kneeJoint, ankleJoint, toeBase, toeTip⟩

/-- getArmJoints from kinematics.ts: shoulder, elbow, wrist and hand positions
of one arm, with the clavicle offsets from the rigging constants and the fixed
arm base angle of ninety degrees (mirrored on the left). -/
def getArmJoints (pose : Pose) (isRight : Bool) : ArmJoints :=
  let rootRotation := pose.rootRotation
  let globalAngleTorso := rootRotation + pose.torso
  let shoulderAngle := if isRight then pose.rShoulder else pose.lShoulder
  let forearmAngle := if isRight then pose.rForearm else pose.lForearm
  let wristAngle := if isRight then pose.rWrist else pose.lWrist
  let halfWidth :=
    ANATOMY.SHOULDER_WIDTH / 2 - RIGGING.SHOULDER_INSET + RIGGING.CLAVICLE_EXTENSION
  let sx := if isRight then -halfWidth else halfWidth
  let sy := RIGGING.SHOULDER_LIFT
  let shoulderOffsetVec := rotateVec sx sy globalAngleTorso
  let shoulderJoint := addVec pose.root shoulderOffsetVec
  let baseArmAngle : ℝ := if isRight then 90 else -90
  let effectiveShoulderAngle :=
    if isRight then baseArmAngle + shoulderAngle else baseArmAngle - shoulderAngle
  let globalAngleArm := globalAngleTorso + effectiveShoulderAngle
  let armVec := rotateVec 0 ANATOMY.UPPER_ARM globalAngleArm
  let elbowJoint := addVec shoulderJoint armVec
  let globalAngleForearm := globalAngleArm + forearmAngle
  let forearmVec := rotateVec 0 ANATOMY.LOWER_ARM globalAngleForearm
  let wristJoint := addVec elbowJoint forearmVec
  let globalAngleHand := globalAngleForearm + wristAngle
  let handVec := rotateVec 0 ANATOMY.HAND globalAngleHand
  let handTip := addVec wristJoint handVec
  ⟨shoulderJoint, elbowJoint, wristJoint, handTip⟩

/-- getJointPositions from kinematics.ts: global positions of every joint of
the whole body for a given pose. -/
def getJointPositions (pose : Pose) : JointPositions :=
  let rightLeg := getLegJoints pose true
  let leftLeg := getLegJoints pose false
  let rootRotation := pose.rootRotation
  let globalAngleTorso := rootRotation + pose.torso
  let torsoVec := rotateVec 0 ANATOMY.TORSO globalAngleTorso
  let neckBase := addVec pose.root torsoVec
  let globalAngleNeck := globalAngleTorso + pose.neck
  let headVec := rotateVec 0 (ANATOMY.NECK + ANATOMY.HEAD) globalAngleNeck
  let headTop := addVec neckBase headVec
  let rightArm := getArmJoints pose true
  let leftArm := getArmJoints pose false
  { lHip := leftLeg.hip, rHip := rightLeg.hip
    lKnee := leftLeg.knee, rKnee := rightLeg.knee
    lAnkle := leftLeg.ankle, rAnkle := rightLeg.ankle
    lToeTip := leftLeg.toeTip, rToeTip := rightLeg.toeTip
    neckBase := neckBase, headTop := headTop
    lShoulder := leftArm.shoulder, rShoulder := rightArm.shoulder
    lElbow := leftArm.elbow, rElbow := rightArm.elbow
    lWrist := leftArm.wrist, rWrist := rightArm.wrist }

/-- C2 counterexample: two poses that differ only in a corrective angle are
mapped to identical joint-position maps by getJointPositions, so the returned
position of a joint whose bone carries a corrective does not depend on that
corrective angle. -/
theorem getJointPositions_counterexample_corrective_ignored :
    getJointPositions { DEFAULT_POSE with rThighCorrective := 40 } =
      getJointPositions DEFAULT_POSE ∧
    ({ DEFAULT_POSE with rThighCorrective := 40 } : Pose).rThighCorrective ≠
      DEFAULT_POSE.rThighCorrective := by
  constructor
  · rfl
  · show (40 : ℝ) ≠ DEFAULT_POSE.rThighCorrective
    rw [show DEFAULT_POSE.rThighCorrective = -5 from rfl]
    norm_num

/-- C2 (amended): corrective angles are excluded from the resolver entirely:
getJointPositions never reads a corrective field, so every returned joint
position, including the shoulders and thighs, is independent of all four
corrective angles; no pivot-shift displacement is applied at the joint the
corrective belongs to. -/
theorem getJointPositions_independent_of_correctives
    (p : Pose) (a b c d : ℝ) :
    getJointPositions
      { p with lBicepCorrective := a, rBicepCorrective := b,
               lThighCorrective := c, rThighCorrective := d } =
      getJointPositions p := rfl

/-! The Bone component from Bone.tsx: corrective pivot-shift semantics. -/

/-- The inputs of one Bone element that matter for kinematics: its primary
rotation, its corrective angle and its length (all other props are visual). -/
structure BoneInput where
  rotation : ℝ
  corrective : ℝ
  length : ℝ

/-- A coordinate frame produced by nested SVG group transforms: the position of
its origin and its accumulated rotation in degrees. -/
structure Frame2 where
  pos : Vec2
  ang : ℝ

/-- Rotation of a local vector into a frame rotated by the given angle in
degrees, matching the SVG rotate transform. -/
def rotInFrame (angleDeg : ℝ) (v : Vec2) : Vec2 :=
  rotateVec v.x v.y angleDeg

/-- Phase 1 of Bone.tsx: the pivot shift produced by the corrective angle,
shift = (length * sin c, length * (1 - cos c)) in the local unrotated frame. -/
def boneShift (b : BoneInput) : Vec2 :=
  ⟨b.length * Real.sin (rad b.corrective),
   b.length * (1 - Real.cos (rad b.corrective))⟩

open Classical in
/-- Phases 1 and 2 of Bone.tsx: when the corrective is nonzero the group
transform is translate(shift) rotate(rotation + corrective), otherwise it is
rotate(rotation). -/
def applyBoneTransform (f : Frame2) (b : BoneInput) : Frame2 :=
  if b.corrective ≠ 0 then
    { pos := addVec f.pos (rotInFrame f.ang (boneShift b))
      ang := f.ang + (b.rotation + b.corrective) }
  else
    { pos := f.pos, ang := f.ang + b.rotation }

/-- Phase 3 of Bone.tsx: the children container is placed at the distal end
(0, length) of the bone and counter-rotated by the negated corrective. -/
def childFrame (f : Frame2) (b : BoneInput) : Frame2 :=
  let g := applyBoneTransform f b
  { pos := addVec g.pos (rotInFrame g.ang ⟨0, b.length⟩)
    ang := g.ang + -b.corrective }

/-- The frame reached by a whole chain of nested Bone elements. -/
def chainFrame (f : Frame2) (bs : List BoneInput) : Frame2 :=
  bs.foldl childFrame f

/-- C1 (child-pinning invariant): for any chain of bones, the orientation of
the frame in which children are attached equals the starting orientation plus
the sum of the primary rotations of the chain alone; every corrective angle
shifts the proximal anchor and rotates its own bone by rotation + corrective,
but the counter-rotation at the distal end cancels it exactly, so the global
orientation of a child is independent of every corrective of its ancestors. -/
theorem bone_child_pinning_invariant (f : Frame2) (bs : List BoneInput) :
    (chainFrame f bs).ang = f.ang + (bs.map BoneInput.rotation).sum := by
  induction bs generalizing f with
  | nil => simp [chainFrame]
  | cons b bs ih =>
    have hstep : (childFrame f b).ang = f.ang + b.rotation := by
      by_cases hc : b.corrective = 0
      · simp [childFrame, applyBoneTransform, hc]
      · simp [childFrame, applyBoneTransform, hc]
        ring
    calc (chainFrame f (b :: bs)).ang
        = (chainFrame (childFrame f b) bs).ang := rfl
      _ = (childFrame f b).ang + (bs.map BoneInput.rotation).sum := ih _
      _ = f.ang + ((b :: bs).map BoneInput.rotation).sum := by
          rw [hstep]; simp; ring

/-! The two-bone IK solver from kinematics.ts. -/

/-- The length of the displacement from the chain root to the target, as
computed at the top of solveTwoBoneIK. -/
def ikDist (hipPos targetAnkle : Vec2) : ℝ :=
  let dx := targetAnkle.x - hipPos.x
  let dy := targetAnkle.y - hipPos.y
  Real.sqrt (dx * dx + dy * dy)

/-- The clamped reach of solveTwoBoneIK: min(dist, L1 + L2 - 0.1). -/
def ikReach (dist L1 L2 : ℝ) : ℝ := min dist (L1 + L2 - 0.1)

/-- The clamp applied before each arc cosine in solveTwoBoneIK:
Math.max(-1, Math.min(1, x)). -/
def clampCos (x : ℝ) : ℝ := max (-1) (min 1 x)

/-- The law-of-cosines quotient for the angle between the first segment and
the reach vector: (L1 * L1 + reach * reach - L2 * L2) / (2 * L1 * reach).
The denominator is 2 * L1 * reach, with no guard against it being zero. -/
def ikCosAlpha (L1 reach L2 : ℝ) : ℝ :=
  (L1 * L1 + reach * reach - L2 * L2) / (2 * L1 * reach)

/-- The law-of-cosines quotient for the internal knee angle:
(L1 * L1 + L2 * L2 - reach * reach) / (2 * L1 * L2). -/
def ikCosC (L1 L2 reach : ℝ) : ℝ :=
  (L1 * L1 + L2 * L2 - reach * reach) / (2 * L1 * L2)

/-- The JavaScript Math.atan2(y, x), modelled by the argument of the complex
number x + y i, which agrees with atan2 on its principal range. -/
def atan2 (y x : ℝ) : ℝ := Complex.arg ⟨x, y⟩

/-- solveTwoBoneIK from kinematics.ts: local thigh and calf angles in degrees
placing the ankle of a two-segment chain at (or nearest to) the target. -/
def solveTwoBoneIK (rootRot hipsRot : ℝ) (hipPos targetAnkle : Vec2)
    (L1 L2 currentBendDir : ℝ) : ℝ × ℝ :=
  let dx := targetAnkle.x - hipPos.x
  let dy := targetAnkle.y - hipPos.y
  let dist := ikDist hipPos targetAnkle
  let reach := ikReach dist L1 L2
  let alpha := Real.arccos (clampCos (ikCosAlpha L1 reach L2))
  let vectorAngle := atan2 dy dx - Real.pi / 2
  let thighGlobalRad := vectorAngle - alpha * currentBendDir
  let angleC := Real.arccos (clampCos (ikCosC L1 L2 reach))
  let calfLocalRad := (Real.pi - angleC) * currentBendDir
  let thighGlobalDeg := thighGlobalRad * 180 / Real.pi
  let calfLocalDeg := calfLocalRad * 180 / Real.pi
  let thighLocalDeg := thighGlobalDeg - rootRot - hipsRot
  (thighLocalDeg, calfLocalDeg)

/-- C3: at a target equal to the chain root the displacement length is zero,
the clamped reach is zero, and the divisor 2 * L1 * reach of the cosAlpha
quotient inside solveTwoBoneIK is therefore zero: the solver does divide by
zero at this input, and with the leg lengths L1 = L2 = 100 used by the program
the numerator of that quotient is zero as well, so the JavaScript evaluation
produces 0 / 0 = NaN; no fallback to the current angle exists in the code. -/
theorem solveTwoBoneIK_divides_by_zero_at_chain_root :
    ikDist ⟨0, 0⟩ ⟨0, 0⟩ = 0 ∧
    ikReach (ikDist ⟨0, 0⟩ ⟨0, 0⟩) 100 100 = 0 ∧
    2 * (100 : ℝ) * ikReach (ikDist ⟨0, 0⟩ ⟨0, 0⟩) 100 100 = 0 ∧
    (100 : ℝ) * 100 + ikReach (ikDist ⟨0, 0⟩ ⟨0, 0⟩) 100 100 *
        ikReach (ikDist ⟨0, 0⟩ ⟨0, 0⟩) 100 100 - 100 * 100 = 0 := by
  have hdist : ikDist ⟨0, 0⟩ ⟨0, 0⟩ = 0 := by
    simp [ikDist]
  have hreach : ikReach (ikDist ⟨0, 0⟩ ⟨0, 0⟩) 100 100 = 0 := by
    rw [hdist]
    unfold ikReach
    rw [min_eq_left (by norm_num)]
  refine ⟨hdist, hreach, ?_, ?_⟩ <;> rw [hreach] <;> ring

/-! Feeding IK results back through forward kinematics (claim C4). -/

/-- The forward kinematics of the two-segment leg chain, as in calculateAnkle
from kinematics.ts, generalized over the two segment lengths (the source
instantiates them with ANATOMY.LEG_UPPER and ANATOMY.LEG_LOWER): the global
thigh angle is the ancestor sum plus the local thigh angle, the global calf
angle adds the local calf angle, and each segment advances the position. -/
def fkTwoBone (rootRot hipsRot : ℝ) (hip : Vec2)
    (thighLocal calfLocal L1 L2 : ℝ) : Vec2 :=
  let thighAngleGlobal := rootRot + hipsRot + thighLocal
  let calfAngleGlobal := thighAngleGlobal + calfLocal
  let thighVec := rotateVec 0 L1 thighAngleGlobal
  let calfVec := rotateVec 0 L2 calfAngleGlobal
  let knee := addVec hip thighVec
  addVec knee calfVec

/-- Degrees produced from radians by the solver convert back exactly. -/
lemma rad_of_deg (x : ℝ) : rad (x * 180 / Real.pi) = x := by
  rw [rad]
  field_simp


set_option maxHeartbeats 1000000 in
/-- Core geometric lemma: for an unreachable target, the solver output fed
back through forward kinematics lands on the root-to-target ray at the clamped
reach L1 + L2 - 0.1. -/
lemma twoBone_fk_on_ray (rootRot hipsRot : ℝ) (hip target : Vec2)
    (L1 L2 bd : ℝ) (hL1 : 0 < L1) (hL2 : 0 < L2)
    (hmin : (0.1 : ℝ) < 2 * min L1 L2)
    (hbd : bd = 1 ∨ bd = -1) (hfar : L1 + L2 < ikDist hip target) :
    fkTwoBone rootRot hipsRot hip
        (solveTwoBoneIK rootRot hipsRot hip target L1 L2 bd).1
        (solveTwoBoneIK rootRot hipsRot hip target L1 L2 bd).2 L1 L2 =
      ⟨hip.x + ((L1 + L2 - 0.1) / ikDist hip target) * (target.x - hip.x),
       hip.y + ((L1 + L2 - 0.1) / ikDist hip target) * (target.y - hip.y)⟩ := by
  have hm1 : min L1 L2 ≤ L1 := min_le_left _ _
  have hm2 : min L1 L2 ≤ L2 := min_le_right _ _
  have h05L1 : (0.05 : ℝ) < L1 := by linarith
  have h05L2 : (0.05 : ℝ) < L2 := by linarith
  have hd_sqrt : ikDist hip target =
      Real.sqrt ((target.x - hip.x) * (target.x - hip.x) +
        (target.y - hip.y) * (target.y - hip.y)) := rfl
  have hLL : 0 < L1 + L2 := by linarith
  have hd0 : 0 < ikDist hip target := lt_trans hLL hfar
  have hdne : ikDist hip target ≠ 0 := ne_of_gt hd0
  have hrpos : 0 < L1 + L2 - 0.1 := by linarith
  have hrne : L1 + L2 - 0.1 ≠ 0 := ne_of_gt hrpos
  have hreach : ikReach (ikDist hip target) L1 L2 = L1 + L2 - 0.1 := by
    rw [ikReach]
    exact min_eq_right (by linarith)
  have hD1pos : 0 < 2 * L1 * (L1 + L2 - 0.1) := by positivity
  have hD2pos : 0 < 2 * L1 * L2 := by positivity
  have hA_le : ikCosAlpha L1 (L1 + L2 - 0.1) L2 ≤ 1 := by
    rw [ikCosAlpha, div_le_one hD1pos]
    nlinarith
  have hA_ge : (-1 : ℝ) ≤ ikCosAlpha L1 (L1 + L2 - 0.1) L2 := by
    rw [ikCosAlpha, le_div_iff₀ hD1pos]
    nlinarith
  have hB_lt : ikCosC L1 L2 (L1 + L2 - 0.1) < 1 := by
    rw [ikCosC, div_lt_one hD2pos]
    nlinarith [mul_pos (show (0:ℝ) < 2 * L1 - 0.1 by linarith)
      (show (0:ℝ) < 2 * L2 - 0.1 by linarith)]
  have hB_gt : (-1 : ℝ) < ikCosC L1 L2 (L1 + L2 - 0.1) := by
    rw [ikCosC, lt_div_iff₀ hD2pos]
    nlinarith
  have hclampA : clampCos (ikCosAlpha L1 (L1 + L2 - 0.1) L2) =
      ikCosAlpha L1 (L1 + L2 - 0.1) L2 := by
    rw [clampCos, min_eq_right hA_le, max_eq_right hA_ge]
  have hclampB : clampCos (ikCosC L1 L2 (L1 + L2 - 0.1)) =
      ikCosC L1 L2 (L1 + L2 - 0.1) := by
    rw [clampCos, min_eq_right hB_lt.le, max_eq_right hB_gt.le]
  set cA := ikCosAlpha L1 (L1 + L2 - 0.1) L2 with hcAdef
  set cB := ikCosC L1 L2 (L1 + L2 - 0.1) with hcBdef
  set q := (2 * L1 - 0.1) * (2 * L2 - 0.1) * (0.1 : ℝ) *
      (2 * L1 + 2 * L2 - 0.1) with hqdef
  have hq_pos : 0 < q := by
    rw [hqdef]
    have f1 : (0:ℝ) < 2 * L1 - 0.1 := by linarith
    have f2 : (0:ℝ) < 2 * L2 - 0.1 := by linarith
    have f4 : (0:ℝ) < 2 * L1 + 2 * L2 - 0.1 := by linarith
    positivity
  have hsinA_sq : 1 - cA ^ 2 = q / (2 * L1 * (L1 + L2 - 0.1)) ^ 2 := by
    rw [hcAdef, ikCosAlpha, hqdef]
    field_simp
    ring
  have hsinB_sq : 1 - cB ^ 2 = q / (2 * L1 * L2) ^ 2 := by
    rw [hcBdef, ikCosC, hqdef]
    field_simp
    ring
  have hsinA : Real.sin (Real.arccos cA) =
      Real.sqrt q / (2 * L1 * (L1 + L2 - 0.1)) := by
    rw [Real.sin_arccos, hsinA_sq, Real.sqrt_div hq_pos.le,
      Real.sqrt_sq hD1pos.le]
  have hsinB : Real.sin (Real.arccos cB) = Real.sqrt q / (2 * L1 * L2) := by
    rw [Real.sin_arccos, hsinB_sq, Real.sqrt_div hq_pos.le,
      Real.sqrt_sq hD2pos.le]
  have hcosA : Real.cos (Real.arccos cA) = cA := Real.cos_arccos hA_ge hA_le
  have hcosB : Real.cos (Real.arccos cB) = cB :=
    Real.cos_arccos hB_gt.le hB_lt.le
  have hqq : Real.sqrt q / (2 * L1 * L2) *
      (Real.sqrt q / (2 * L1 * (L1 + L2 - 0.1))) =
      q / (2 * L1 * L2 * (2 * L1 * (L1 + L2 - 0.1))) := by
    rw [div_mul_div_comm, Real.mul_self_sqrt hq_pos.le]
  have hI1 : L1 * Real.cos (Real.arccos cA) -
      L2 * (Real.cos (Real.arccos cB) * Real.cos (Real.arccos cA) -
        Real.sin (Real.arccos cB) * Real.sin (Real.arccos cA)) =
      L1 + L2 - 0.1 := by
    rw [hcosA, hcosB, hsinA, hsinB, hqq, hcAdef, hcBdef, ikCosAlpha, ikCosC,
      hqdef]
    field_simp
    ring
  have hI2 : L1 * Real.sin (Real.arccos cA) -
      L2 * (Real.sin (Real.arccos cB) * Real.cos (Real.arccos cA) +
        Real.cos (Real.arccos cB) * Real.sin (Real.arccos cA)) = 0 := by
    rw [hcosA, hcosB, hsinA, hsinB, hcAdef, hcBdef, ikCosAlpha, ikCosC]
    field_simp
    ring
  have hzne : (⟨target.x - hip.x, target.y - hip.y⟩ : ℂ) ≠ 0 := by
    intro h
    have hre : target.x - hip.x = 0 := congrArg Complex.re h
    have him : target.y - hip.y = 0 := congrArg Complex.im h
    rw [hd_sqrt, hre, him] at hd0
    simp at hd0
  have habs : Complex.abs ⟨target.x - hip.x, target.y - hip.y⟩ =
      ikDist hip target := by
    rw [Complex.abs_apply, Complex.normSq_mk, hd_sqrt]
  have hcosArg : Real.cos (atan2 (target.y - hip.y) (target.x - hip.x)) =
      (target.x - hip.x) / ikDist hip target := by
    rw [atan2, Complex.cos_arg hzne, habs]
  have hsinArg : Real.sin (atan2 (target.y - hip.y) (target.x - hip.x)) =
      (target.y - hip.y) / ikDist hip target := by
    rw [atan2, Complex.sin_arg, habs]
  simp only [solveTwoBoneIK, fkTwoBone, rotateVec, addVec]
  rw [hreach, hclampA, hclampB]
  have e1 : rootRot + hipsRot +
      ((atan2 (target.y - hip.y) (target.x - hip.x) - Real.pi / 2 -
          Real.arccos cA * bd) * 180 / Real.pi - rootRot - hipsRot) =
      (atan2 (target.y - hip.y) (target.x - hip.x) - Real.pi / 2 -
        Real.arccos cA * bd) * 180 / Real.pi := by
    ring
  rw [e1, rad_of_deg]
  have e2 : (atan2 (target.y - hip.y) (target.x - hip.x) - Real.pi / 2 -
        Real.arccos cA * bd) * 180 / Real.pi +
      (Real.pi - Real.arccos cB) * bd * 180 / Real.pi =
      (atan2 (target.y - hip.y) (target.x - hip.x) - Real.pi / 2 -
        Real.arccos cA * bd + (Real.pi - Real.arccos cB) * bd) * 180 /
        Real.pi := by
    ring
  rw [e2, rad_of_deg]
  rcases hbd with rfl | rfl <;>
    refine Vec2.ext ?_ ?_ <;>
    simp only [Real.sin_sub, Real.cos_sub, Real.sin_add, Real.cos_add,
      Real.sin_pi, Real.cos_pi, Real.sin_pi_div_two, Real.cos_pi_div_two,
      Real.sin_neg, Real.cos_neg, mul_one, mul_neg_one, one_mul, neg_neg,
      zero_mul, mul_zero, zero_sub, sub_zero, zero_add, add_zero,
      neg_zero] <;>
    rw [hcosArg, hsinArg]
  · linear_combination ((target.x - hip.x) / ikDist hip target) * hI1 +
      ((target.y - hip.y) / ikDist hip target) * hI2
  · linear_combination ((target.y - hip.y) / ikDist hip target) * hI1 -
      ((target.x - hip.x) / ikDist hip target) * hI2
  · linear_combination ((target.x - hip.x) / ikDist hip target) * hI1 -
      ((target.y - hip.y) / ikDist hip target) * hI2
  · linear_combination ((target.y - hip.y) / ikDist hip target) * hI1 +
      ((target.x - hip.x) / ikDist hip target) * hI2

/-- The end effector produced by the solver for an unreachable target sits at
distance L1 + L2 - 0.1 from the chain root. -/
lemma twoBone_fk_dist (rootRot hipsRot : ℝ) (hip target : Vec2)
    (L1 L2 bd : ℝ) (hL1 : 0 < L1) (hL2 : 0 < L2)
    (hmin : (0.1 : ℝ) < 2 * min L1 L2)
    (hbd : bd = 1 ∨ bd = -1) (hfar : L1 + L2 < ikDist hip target) :
    ikDist hip (fkTwoBone rootRot hipsRot hip
        (solveTwoBoneIK rootRot hipsRot hip target L1 L2 bd).1
        (solveTwoBoneIK rootRot hipsRot hip target L1 L2 bd).2 L1 L2) =
      L1 + L2 - 0.1 := by
  have hm1 : min L1 L2 ≤ L1 := min_le_left _ _
  have hm2 : min L1 L2 ≤ L2 := min_le_right _ _
  have hLL : 0 < L1 + L2 := by linarith
  have hd0 : 0 < ikDist hip target := lt_trans hLL hfar
  have hdne : ikDist hip target ≠ 0 := ne_of_gt hd0
  have hrpos : 0 < L1 + L2 - 0.1 := by linarith
  have hd_sqrt : ikDist hip target =
      Real.sqrt ((target.x - hip.x) * (target.x - hip.x) +
        (target.y - hip.y) * (target.y - hip.y)) := rfl
  have hdd : (target.x - hip.x) * (target.x - hip.x) +
      (target.y - hip.y) * (target.y - hip.y) = (ikDist hip target) ^ 2 := by
    rw [hd_sqrt,
      Real.sq_sqrt (add_nonneg (mul_self_nonneg _) (mul_self_nonneg _))]
  rw [twoBone_fk_on_ray rootRot hipsRot hip target L1 L2 bd hL1 hL2 hmin hbd
    hfar, ikDist]
  have harg : (hip.x + (L1 + L2 - 0.1) / ikDist hip target *
        (target.x - hip.x) - hip.x) *
      (hip.x + (L1 + L2 - 0.1) / ikDist hip target * (target.x - hip.x) -
        hip.x) +
      (hip.y + (L1 + L2 - 0.1) / ikDist hip target * (target.y - hip.y) -
        hip.y) *
      (hip.y + (L1 + L2 - 0.1) / ikDist hip target * (target.y - hip.y) -
        hip.y) = (L1 + L2 - 0.1) ^ 2 := by
    have step : (hip.x + (L1 + L2 - 0.1) / ikDist hip target *
          (target.x - hip.x) - hip.x) *
        (hip.x + (L1 + L2 - 0.1) / ikDist hip target * (target.x - hip.x) -
          hip.x) +
        (hip.y + (L1 + L2 - 0.1) / ikDist hip target * (target.y - hip.y) -
          hip.y) *
        (hip.y + (L1 + L2 - 0.1) / ikDist hip target * (target.y - hip.y) -
          hip.y) =
        ((L1 + L2 - 0.1) / ikDist hip target) ^ 2 *
          ((target.x - hip.x) * (target.x - hip.x) +
            (target.y - hip.y) * (target.y - hip.y)) := by
      ring
    rw [step, hdd]
    field_simp
  rw [harg, Real.sqrt_sq hrpos.le]

/-- The calf angle returned by the solver for an unreachable target is not
zero: the clamped reach keeps the internal knee angle strictly below a
straight line. -/
lemma twoBone_calf_ne_zero (rootRot hipsRot : ℝ) (hip target : Vec2)
    (L1 L2 bd : ℝ) (hL1 : 0 < L1) (hL2 : 0 < L2)
    (hmin : (0.1 : ℝ) < 2 * min L1 L2)
    (hbd : bd = 1 ∨ bd = -1) (hfar : L1 + L2 < ikDist hip target) :
    (solveTwoBoneIK rootRot hipsRot hip target L1 L2 bd).2 ≠ 0 := by
  have hm1 : min L1 L2 ≤ L1 := min_le_left _ _
  have hm2 : min L1 L2 ≤ L2 := min_le_right _ _
  have hLL : 0 < L1 + L2 := by linarith
  have hreach : ikReach (ikDist hip target) L1 L2 = L1 + L2 - 0.1 := by
    rw [ikReach]
    exact min_eq_right (by linarith)
  have hD2pos : 0 < 2 * L1 * L2 := by positivity
  have hB_lt : ikCosC L1 L2 (L1 + L2 - 0.1) < 1 := by
    rw [ikCosC, div_lt_one hD2pos]
    nlinarith [mul_pos (show (0:ℝ) < 2 * L1 - 0.1 by linarith)
      (show (0:ℝ) < 2 * L2 - 0.1 by linarith)]
  have hB_gt : (-1 : ℝ) < ikCosC L1 L2 (L1 + L2 - 0.1) := by
    rw [ikCosC, lt_div_iff₀ hD2pos]
    nlinarith
  have hclampB : clampCos (ikCosC L1 L2 (L1 + L2 - 0.1)) =
      ikCosC L1 L2 (L1 + L2 - 0.1) := by
    rw [clampCos, min_eq_right hB_lt.le, max_eq_right hB_gt.le]
  simp only [solveTwoBoneIK]
  rw [hreach, hclampB]
  have hCne : Real.arccos (ikCosC L1 L2 (L1 + L2 - 0.1)) ≠ Real.pi := by
    rw [Ne, Real.arccos_eq_pi]
    linarith
  have hClt : Real.arccos (ikCosC L1 L2 (L1 + L2 - 0.1)) < Real.pi :=
    lt_of_le_of_ne (Real.arccos_le_pi _) hCne
  have h2 : Real.pi - Real.arccos (ikCosC L1 L2 (L1 + L2 - 0.1)) ≠ 0 :=
    ne_of_gt (by linarith)
  have hbdne : bd ≠ 0 := by rcases hbd with rfl | rfl <;> norm_num
  exact div_ne_zero
    (mul_ne_zero (mul_ne_zero h2 hbdne) (by norm_num)) Real.pi_ne_zero

/-- C4 (amended): for every target strictly farther than L1 + L2 from the
chain root, the solver raises no error and nearly fully extends the chain:
feeding the returned angles back through forward kinematics places the end
effector on the root-to-target ray at distance L1 + L2 - 0.1 (the clamped
reach) from the chain root, not at L1 + L2, and the returned calf angle is a
small nonzero constant determined by the 0.1 clamp margin rather than
exactly zero. -/
theorem solveTwoBoneIK_unreachable_clamped_extension
    (rootRot hipsRot : ℝ) (hip target : Vec2) (L1 L2 bd : ℝ)
    (hL1 : 0 < L1) (hL2 : 0 < L2) (hmin : (0.1 : ℝ) < 2 * min L1 L2)
    (hbd : bd = 1 ∨ bd = -1) (hfar : L1 + L2 < ikDist hip target) :
    fkTwoBone rootRot hipsRot hip
        (solveTwoBoneIK rootRot hipsRot hip target L1 L2 bd).1
        (solveTwoBoneIK rootRot hipsRot hip target L1 L2 bd).2 L1 L2 =
      ⟨hip.x + ((L1 + L2 - 0.1) / ikDist hip target) * (target.x - hip.x),
       hip.y + ((L1 + L2 - 0.1) / ikDist hip target) * (target.y - hip.y)⟩ ∧
    ikDist hip (fkTwoBone rootRot hipsRot hip
        (solveTwoBoneIK rootRot hipsRot hip target L1 L2 bd).1
        (solveTwoBoneIK rootRot hipsRot hip target L1 L2 bd).2 L1 L2) =
      L1 + L2 - 0.1 ∧
    (solveTwoBoneIK rootRot hipsRot hip target L1 L2 bd).2 ≠ 0 :=
  ⟨twoBone_fk_on_ray rootRot hipsRot hip target L1 L2 bd hL1 hL2 hmin hbd hfar,
   twoBone_fk_dist rootRot hipsRot hip target L1 L2 bd hL1 hL2 hmin hbd hfar,
   twoBone_calf_ne_zero rootRot hipsRot hip target L1 L2 bd hL1 hL2 hmin hbd
     hfar⟩

/-- The distance from the origin to the concrete target (0, 300). -/
lemma ikDist_origin_to_0_300 : ikDist ⟨0, 0⟩ ⟨0, 300⟩ = 300 := by
  have h : ikDist (⟨0, 0⟩ : Vec2) ⟨0, 300⟩ =
      Real.sqrt (((0:ℝ) - 0) * ((0:ℝ) - 0) + ((300:ℝ) - 0) * ((300:ℝ) - 0)) :=
    rfl
  rw [h, show ((0:ℝ) - 0) * ((0:ℝ) - 0) + ((300:ℝ) - 0) * ((300:ℝ) - 0) =
    300 ^ 2 by norm_num]
  exact Real.sqrt_sq (by norm_num)

/-- C4 counterexample: with chain root (0, 0), target (0, 300) and segment
lengths L1 = L2 = 100 the target distance 300 exceeds L1 + L2 = 200, and the
end effector obtained by feeding the returned angles back through forward
kinematics sits at distance 199.9 from the chain root, not at L1 + L2 = 200
as the claim asserts. -/
theorem solveTwoBoneIK_unreachable_counterexample :
    ikDist ⟨0, 0⟩ (fkTwoBone 0 0 ⟨0, 0⟩
        (solveTwoBoneIK 0 0 ⟨0, 0⟩ ⟨0, 300⟩ 100 100 1).1
        (solveTwoBoneIK 0 0 ⟨0, 0⟩ ⟨0, 300⟩ 100 100 1).2 100 100) = 199.9 ∧
    (199.9 : ℝ) ≠ 100 + 100 := by
  constructor
  · rw [twoBone_fk_dist 0 0 ⟨0, 0⟩ ⟨0, 300⟩ 100 100 1 (by norm_num)
      (by norm_num) (by norm_num) (Or.inl rfl)
      (by rw [ikDist_origin_to_0_300]; norm_num)]
    norm_num
  · norm_num

/-- C4 witness: the amended theorem applied at the concrete unreachable
input with chain root (0, 0), target (0, 300) and L1 = L2 = 100. -/
theorem solveTwoBoneIK_unreachable_clamped_extension_witness :
    ((0:ℝ) < 100 ∧ (0.1 : ℝ) < 2 * min (100:ℝ) 100 ∧
      (100:ℝ) + 100 < ikDist ⟨0, 0⟩ ⟨0, 300⟩) ∧
    (fkTwoBone 0 0 ⟨0, 0⟩
        (solveTwoBoneIK 0 0 ⟨0, 0⟩ ⟨0, 300⟩ 100 100 1).1
        (solveTwoBoneIK 0 0 ⟨0, 0⟩ ⟨0, 300⟩ 100 100 1).2 100 100 =
      ⟨0 + ((100 + 100 - 0.1) / ikDist ⟨0, 0⟩ ⟨0, 300⟩) * (0 - 0),
       0 + ((100 + 100 - 0.1) / ikDist ⟨0, 0⟩ ⟨0, 300⟩) * (300 - 0)⟩ ∧
     ikDist ⟨0, 0⟩ (fkTwoBone 0 0 ⟨0, 0⟩
        (solveTwoBoneIK 0 0 ⟨0, 0⟩ ⟨0, 300⟩ 100 100 1).1
        (solveTwoBoneIK 0 0 ⟨0, 0⟩ ⟨0, 300⟩ 100 100 1).2 100 100) =
      100 + 100 - 0.1 ∧
     (solveTwoBoneIK 0 0 ⟨0, 0⟩ ⟨0, 300⟩ 100 100 1).2 ≠ 0) := by
  have hfar : (100:ℝ) + 100 < ikDist ⟨0, 0⟩ ⟨0, 300⟩ := by
    rw [ikDist_origin_to_0_300]; norm_num
  exact ⟨⟨by norm_num, by norm_num, hfar⟩,
    solveTwoBoneIK_unreachable_clamped_extension 0 0 ⟨0, 0⟩ ⟨0, 300⟩ 100 100 1
      (by norm_num) (by norm_num) (by norm_num) (Or.inl rfl) hfar⟩

/-! The frame sequence, history and auto-record state machine from the App
component. -/

/-- A history entry: an immutable snapshot of (frames, index). -/
structure HistoryState where
  frames : List Pose
  index : ℕ

instance : Inhabited HistoryState := ⟨⟨[], 0⟩⟩

/-- The editing-session state of the App component: the frame sequence with
its current index, the undo and redo stacks, and the playing and recording
flags. -/
structure AppSt where
  frames : List Pose
  index : ℕ
  past : List HistoryState
  future : List HistoryState
  isPlaying : Bool
  isRecording : Bool

/-- The frame-sequence capacity of the App component. -/
def MAX_FRAMES : ℕ := 60

/-- The auto-record deviation threshold of the App component. -/
def RECORDING_THRESHOLD : ℝ := 22.5

/-- A partial pose update, the argument of handlePoseChange: each field is
either absent or supplies a new value, and spreading it over a pose
overwrites exactly the supplied fields. -/
structure PoseUpdate where
  root : Option Vec2 := none
  rootRotation : Option ℝ := none
  hips : Option ℝ := none
  torso : Option ℝ := none
  neck : Option ℝ := none
  lShoulder : Option ℝ := none
  lBicepCorrective : Option ℝ := none
  lForearm : Option ℝ := none
  lWrist : Option ℝ := none
  rShoulder : Option ℝ := none
  rBicepCorrective : Option ℝ := none
  rForearm : Option ℝ := none
  rWrist : Option ℝ := none
  lThigh : Option ℝ := none
  lThighCorrective : Option ℝ := none
  lCalf : Option ℝ := none
  lAnkle : Option ℝ := none
  lToes : Option ℝ := none
  rThigh : Option ℝ := none
  rThighCorrective : Option ℝ := none
  rCalf : Option ℝ := none
  rAnkle : Option ℝ := none
  rToes : Option ℝ := none

/-- The JavaScript object spread of a partial update over a pose. -/
def mergePose (p : Pose) (u : PoseUpdate) : Pose where
  root := u.root.getD p.root
  rootRotation := u.rootRotation.getD p.rootRotation
  hips := u.hips.getD p.hips
  torso := u.torso.getD p.torso
  neck := u.neck.getD p.neck
  lShoulder := u.lShoulder.getD p.lShoulder
  lBicepCorrective := u.lBicepCorrective.getD p.lBicepCorrective
  lForearm := u.lForearm.getD p.lForearm
  lWrist := u.lWrist.getD p.lWrist
  rShoulder := u.rShoulder.getD p.rShoulder
  rBicepCorrective := u.rBicepCorrective.getD p.rBicepCorrective
  rForearm := u.rForearm.getD p.rForearm
  rWrist := u.rWrist.getD p.rWrist
  lThigh := u.lThigh.getD p.lThigh
  lThighCorrective := u.lThighCorrective.getD p.lThighCorrective
  lCalf := u.lCalf.getD p.lCalf
  lAnkle := u.lAnkle.getD p.lAnkle
  lToes := u.lToes.getD p.lToes
  rThigh := u.rThigh.getD p.rThigh
  rThighCorrective := u.rThighCorrective.getD p.rThighCorrective
  rCalf := u.rCalf.getD p.rCalf
  rAnkle := u.rAnkle.getD p.rAnkle
  rToes := u.rToes.getD p.rToes

/-- recordHistory of the App component: push the current (frames, index)
onto the past stack and clear the future stack. -/
def recordHistory (s : AppSt) : AppSt :=
  { s with past := s.past ++ [⟨s.frames, s.index⟩], future := [] }

/-- handleUndo of the App component: no-op when the past stack is empty;
otherwise pop its most recent entry, push the current (frames, index) onto
the front of future, restore the popped state and stop playback. -/
def handleUndo (s : AppSt) : AppSt :=
  match s.past.getLast? with
  | none => s
  | some previousState =>
      { frames := previousState.frames
        index := previousState.index
        past := s.past.dropLast
        future := ⟨s.frames, s.index⟩ :: s.future
        isPlaying := false
        isRecording := s.isRecording }

/-- handleRedo of the App component: no-op when the future stack is empty;
otherwise shift its first entry, push the current (frames, index) onto the
end of past, restore the shifted state and stop playback. -/
def handleRedo (s : AppSt) : AppSt :=
  match s.future with
  | [] => s
  | nextState :: rest =>
      { frames := nextState.frames
        index := nextState.index
        past := s.past ++ [⟨s.frames, s.index⟩]
        future := rest
        isPlaying := false
        isRecording := s.isRecording }

open Classical in
/-- handlePoseChange of the App component: merge the update into the current
frame; while recording under capacity, an edit whose deviation from the
reference frame exceeds the threshold snapshots history, commits the merged
frame into the current slot, appends it again as the new working frame and
advances the index; otherwise the edit overwrites the current frame in
place. -/
def handlePoseChange (s : AppSt) (updates : PoseUpdate) : AppSt :=
  let stopped : AppSt := { s with isPlaying := false }
  let updatedFrame := mergePose (s.frames.getD s.index DEFAULT_POSE) updates
  if s.isRecording = true ∧ s.frames.length < MAX_FRAMES then
    if 0 < s.index then
      let previousFrame := s.frames.getD (s.index - 1) DEFAULT_POSE
      if RECORDING_THRESHOLD <
          getMaxPoseDeviation updatedFrame previousFrame then
        let s2 := recordHistory stopped
        { s2 with
            frames := (s.frames.set s.index updatedFrame) ++ [updatedFrame]
            index := s.index + 1 }
      else
        { stopped with frames := s.frames.set s.index updatedFrame }
    else if s.index = 0 ∧ s.frames.length = 1 then
      if RECORDING_THRESHOLD <
          getMaxPoseDeviation updatedFrame DEFAULT_POSE then
        let s2 := recordHistory stopped
        { s2 with
            frames := (s.frames.set 0 updatedFrame) ++ [updatedFrame]
            index := 1 }
      else
        { stopped with frames := s.frames.set s.index updatedFrame }
    else
      { stopped with frames := s.frames.set s.index updatedFrame }
  else
    { stopped with frames := s.frames.set s.index updatedFrame }

/-- handleAddFrame of the App component: reject when at capacity; otherwise
snapshot history, append a duplicate of the current frame and advance the
index by one. -/
def handleAddFrame (s : AppSt) : AppSt :=
  if MAX_FRAMES ≤ s.frames.length then s
  else
    let s2 := recordHistory s
    { s2 with
        frames := s.frames ++ [s.frames.getD s.index DEFAULT_POSE]
        index := s.index + 1 }

/-- n repeated undo operations. -/
def undoN (n : ℕ) (s : AppSt) : AppSt := handleUndo^[n] s

/-- n repeated redo operations. -/
def redoN (n : ℕ) (s : AppSt) : AppSt := handleRedo^[n] s

/-- One abstract user edit: a history snapshot followed by installing new
frames and a new index, the shape shared by every mutating handler of the
App component. -/
def doEdit (s : AppSt) (e : List Pose × ℕ) : AppSt :=
  { recordHistory s with frames := e.1, index := e.2 }

/-- A sequence of edits applied in order. -/
def doEdits (s : AppSt) (es : List (List Pose × ℕ)) : AppSt :=
  es.foldl doEdit s

/-- The (frames, index) snapshot of a state. -/
def fiOf (s : AppSt) : HistoryState := ⟨s.frames, s.index⟩

/-- The snapshots of every state along a sequence of edits, starting state
included. -/
def statesFI : AppSt → List (List Pose × ℕ) → List HistoryState
  | s, [] => [fiOf s]
  | s, e :: es => fiOf s :: statesFI (doEdit s e) es

/-- Undoing as many times as there are stacked past entries restores the
oldest entry, empties the past stack, and queues every undone state onto
the future stack in chronological order. -/
lemma undoN_depletes (rest : List HistoryState) (h0 : HistoryState) :
    ∀ s : AppSt, s.past = h0 :: rest →
      undoN (h0 :: rest).length s =
        ⟨h0.frames, h0.index, [], rest ++ ⟨s.frames, s.index⟩ :: s.future,
          false, s.isRecording⟩ := by
  induction rest using List.reverseRecOn with
  | nil =>
    intro s hp
    simp [undoN, handleUndo, hp]
  | append_singleton qs a ih =>
    intro s hp
    have hp' : s.past = (h0 :: qs) ++ [a] := by rw [hp]; simp
    have h1 : handleUndo s =
        ⟨a.frames, a.index, h0 :: qs, ⟨s.frames, s.index⟩ :: s.future,
          false, s.isRecording⟩ := by
      rw [handleUndo, hp', List.getLast?_concat, List.dropLast_concat]
    have hlen : (h0 :: (qs ++ [a])).length = (h0 :: qs).length + 1 := by simp
    rw [undoN, hlen, Function.iterate_succ_apply]
    have h2 := ih ⟨a.frames, a.index, h0 :: qs,
      ⟨s.frames, s.index⟩ :: s.future, false, s.isRecording⟩ rfl
    rw [undoN] at h2
    rw [h1, h2]
    simp

/-- Redoing as many times as there are queued future entries replays them
in order, pushes every passed state back onto past, and empties future. -/
lemma redoN_replays (fs : List HistoryState) (a : HistoryState) :
    ∀ s : AppSt, s.future = fs ++ [a] →
      redoN (fs ++ [a]).length s =
        ⟨a.frames, a.index, s.past ++ ⟨s.frames, s.index⟩ :: fs, [], false,
          s.isRecording⟩ := by
  induction fs with
  | nil =>
    intro s hf
    simp only [List.nil_append] at hf
    simp [redoN, handleRedo, hf]
  | cons b fs ih =>
    intro s hf
    have h1 : handleRedo s =
        ⟨b.frames, b.index, s.past ++ [⟨s.frames, s.index⟩], fs ++ [a],
          false, s.isRecording⟩ := by
      rw [handleRedo, hf]
      rfl
    have hlen : ((b :: fs) ++ [a]).length = (fs ++ [a]).length + 1 := by
      simp
    rw [redoN, hlen, Function.iterate_succ_apply]
    have h2 := ih ⟨b.frames, b.index, s.past ++ [⟨s.frames, s.index⟩],
      fs ++ [a], false, s.isRecording⟩ rfl
    rw [redoN] at h2
    rw [h1, h2]
    simp

/-- The length of the snapshot trajectory of a sequence of edits. -/
lemma statesFI_length (es : List (List Pose × ℕ)) :
    ∀ s : AppSt, (statesFI s es).length = es.length + 1 := by
  induction es with
  | nil => intro s; rfl
  | cons e es ih => intro s; simp [statesFI, ih]

/-- A nonempty sequence of edits stacks the snapshots of every state before
the last edit onto the past stack. -/
lemma doEdits_past (es : List (List Pose × ℕ)) :
    ∀ (e : List Pose × ℕ) (s : AppSt),
      (doEdits s (e :: es)).past =
        s.past ++ (statesFI s (e :: es)).dropLast := by
  induction es with
  | nil => intro e s; rfl
  | cons e2 es ih =>
    intro e s
    have h1 : doEdits s (e :: e2 :: es) = doEdits (doEdit s e) (e2 :: es) :=
      rfl
    rw [h1, ih e2 (doEdit s e)]
    show (s.past ++ [fiOf s]) ++ _ = _
    have h2 : (statesFI s (e :: e2 :: es)).dropLast =
        fiOf s :: (statesFI (doEdit s e) (e2 :: es)).dropLast := rfl
    rw [h2, List.append_assoc]
    rfl

/-- A nonempty sequence of edits leaves the future stack empty. -/
lemma doEdits_future (es : List (List Pose × ℕ)) :
    ∀ (e : List Pose × ℕ) (s : AppSt),
      (doEdits s (e :: es)).future = [] := by
  induction es with
  | nil => intro e s; rfl
  | cons e2 es ih => intro e s; exact ih e2 (doEdit s e)

/-- Edits preserve the recording flag. -/
lemma doEdits_isRecording (es : List (List Pose × ℕ)) :
    ∀ s : AppSt, (doEdits s es).isRecording = s.isRecording := by
  induction es with
  | nil => intro s; rfl
  | cons e es ih => intro s; exact ih (doEdit s e)

/-- C5: undo is a no-op on an empty past stack and otherwise pops the most
recent past entry, pushes the current (frames, index) onto the front of
future and restores the popped state; redo is a no-op on an empty future
stack and otherwise shifts the first future entry (the one pushed by the
most recent undo), pushes the current state onto past and restores it; and
after n edits each preceded by a snapshot, n undos return exactly to the
initial (frames, index) with an empty past stack, an (n+1)-th undo is a
no-op, and n redos replay forward to the state held before undoing. -/
theorem history_undo_redo_spec :
    (∀ s : AppSt, s.past = [] → handleUndo s = s) ∧
    (∀ s : AppSt, s.future = [] → handleRedo s = s) ∧
    (∀ (s : AppSt) (ps : List HistoryState) (a : HistoryState),
      s.past = ps ++ [a] →
      handleUndo s = ⟨a.frames, a.index, ps,
        ⟨s.frames, s.index⟩ :: s.future, false, s.isRecording⟩) ∧
    (∀ (s : AppSt) (a : HistoryState) (fs : List HistoryState),
      s.future = a :: fs →
      handleRedo s = ⟨a.frames, a.index, s.past ++ [⟨s.frames, s.index⟩],
        fs, false, s.isRecording⟩) ∧
    (∀ (s0 : AppSt) (es : List (List Pose × ℕ)),
      s0.past = [] → s0.future = [] →
      (undoN es.length (doEdits s0 es)).frames = s0.frames ∧
      (undoN es.length (doEdits s0 es)).index = s0.index ∧
      (undoN es.length (doEdits s0 es)).past = [] ∧
      handleUndo (undoN es.length (doEdits s0 es)) =
        undoN es.length (doEdits s0 es) ∧
      (redoN es.length (undoN es.length (doEdits s0 es))).frames =
        (doEdits s0 es).frames ∧
      (redoN es.length (undoN es.length (doEdits s0 es))).index =
        (doEdits s0 es).index) := by
  refine ⟨?_, ?_, ?_, ?_, ?_⟩
  · intro s h
    rw [handleUndo, h]
    rfl
  · intro s h
    rw [handleRedo, h]
  · intro s ps a h
    rw [handleUndo, h, List.getLast?_concat, List.dropLast_concat]
  · intro s a fs h
    rw [handleRedo, h]
  · intro s0 es h0p h0f
    rcases es with _ | ⟨e, es'⟩
    · refine ⟨rfl, rfl, h0p, ?_, rfl, rfl⟩
      show handleUndo s0 = s0
      rw [handleUndo, h0p]
      rfl
    · have hSlen : (statesFI (doEdit s0 e) es').length = es'.length + 1 :=
        statesFI_length es' (doEdit s0 e)
      have hpast : (doEdits s0 (e :: es')).past =
          fiOf s0 :: (statesFI (doEdit s0 e) es').dropLast := by
        rw [doEdits_past es' e s0, h0p, List.nil_append]
        rcases es' with _ | ⟨e2, es''⟩ <;> rfl
      have hfut : (doEdits s0 (e :: es')).future = [] :=
        doEdits_future es' e s0
      have hrec : (doEdits s0 (e :: es')).isRecording = s0.isRecording :=
        doEdits_isRecording (e :: es') s0
      have hcount : (e :: es').length =
          (fiOf s0 :: (statesFI (doEdit s0 e) es').dropLast).length := by
        simp [List.length_dropLast, hSlen]
      have hundo : undoN (e :: es').length (doEdits s0 (e :: es')) =
          ⟨s0.frames, s0.index, [],
            (statesFI (doEdit s0 e) es').dropLast ++
              ⟨(doEdits s0 (e :: es')).frames,
                (doEdits s0 (e :: es')).index⟩ ::
                (doEdits s0 (e :: es')).future,
            false, (doEdits s0 (e :: es')).isRecording⟩ := by
        rw [hcount]
        exact undoN_depletes _ (fiOf s0) _ hpast
      rw [hundo, hfut, hrec]
      refine ⟨rfl, rfl, rfl, rfl, ?_, ?_⟩ <;>
      · have hredo := redoN_replays
          ((statesFI (doEdit s0 e) es').dropLast)
          ⟨(doEdits s0 (e :: es')).frames, (doEdits s0 (e :: es')).index⟩
          ⟨s0.frames, s0.index, [],
            (statesFI (doEdit s0 e) es').dropLast ++
              [⟨(doEdits s0 (e :: es')).frames,
                (doEdits s0 (e :: es')).index⟩],
            false, s0.isRecording⟩ rfl
        have hcount2 : (e :: es').length =
            ((statesFI (doEdit s0 e) es').dropLast ++
              [(⟨(doEdits s0 (e :: es')).frames,
                (doEdits s0 (e :: es')).index⟩ : HistoryState)]).length := by
          simp [List.length_dropLast, hSlen]
        rw [hcount2, hredo]

/-- A concrete editing session used to exercise the history theorem: one
frame, empty history. -/
def sessionStart : AppSt := ⟨[DEFAULT_POSE], 0, [], [], false, false⟩

/-- Three concrete edits for the history scenario. -/
def threeEdits : List (List Pose × ℕ) :=
  [([DEFAULT_POSE, DEFAULT_POSE], 1), ([DEFAULT_POSE], 0),
   ([DEFAULT_POSE, DEFAULT_POSE, DEFAULT_POSE], 2)]

/-- C5 witness: the history theorem applied to a concrete session with three
edits: three undos restore the initial frames and index and empty the past
stack, a fourth undo is a no-op, and three redos replay to the state before
undoing. -/
theorem history_undo_redo_spec_witness :
    sessionStart.past = [] ∧ sessionStart.future = [] ∧
    (undoN 3 (doEdits sessionStart threeEdits)).frames = [DEFAULT_POSE] ∧
    (undoN 3 (doEdits sessionStart threeEdits)).index = 0 ∧
    (undoN 3 (doEdits sessionStart threeEdits)).past = [] ∧
    handleUndo (undoN 3 (doEdits sessionStart threeEdits)) =
      undoN 3 (doEdits sessionStart threeEdits) ∧
    (redoN 3 (undoN 3 (doEdits sessionStart threeEdits))).frames =
      (doEdits sessionStart threeEdits).frames := by
  have h := history_undo_redo_spec.2.2.2.2 sessionStart threeEdits rfl rfl
  exact ⟨rfl, rfl, h.1, h.2.1, h.2.2.1, h.2.2.2.1, h.2.2.2.2.1⟩

/-- C6: while recording under capacity, with the reference pose being the
prior frame when the index is positive and the default pose when the single
first frame is edited, an edit whose deviation from the reference exceeds
the threshold snapshots history, commits the merged pose into the current
slot, appends exactly one new trailing copy and advances the index by one;
an edit whose deviation does not exceed the threshold leaves the frame
count, index and history unchanged and only rewrites the current frame. -/
theorem autoRecord_threshold_spec (s : AppSt) (u : PoseUpdate)
    (hrec : s.isRecording = true) (hcap : s.frames.length < MAX_FRAMES)
    (href : 0 < s.index ∨ s.frames.length = 1) :
    (RECORDING_THRESHOLD <
        getMaxPoseDeviation
          (mergePose (s.frames.getD s.index DEFAULT_POSE) u)
          (if 0 < s.index then s.frames.getD (s.index - 1) DEFAULT_POSE
           else DEFAULT_POSE) →
      (handlePoseChange s u).frames =
        (s.frames.set s.index
            (mergePose (s.frames.getD s.index DEFAULT_POSE) u)) ++
          [mergePose (s.frames.getD s.index DEFAULT_POSE) u] ∧
      (handlePoseChange s u).frames.length = s.frames.length + 1 ∧
      (handlePoseChange s u).index = s.index + 1 ∧
      (handlePoseChange s u).past = s.past ++ [⟨s.frames, s.index⟩] ∧
      (handlePoseChange s u).future = []) ∧
    (getMaxPoseDeviation (mergePose (s.frames.getD s.index DEFAULT_POSE) u)
        (if 0 < s.index then s.frames.getD (s.index - 1) DEFAULT_POSE
         else DEFAULT_POSE) ≤ RECORDING_THRESHOLD →
      (handlePoseChange s u).frames =
        s.frames.set s.index
          (mergePose (s.frames.getD s.index DEFAULT_POSE) u) ∧
      (handlePoseChange s u).frames.length = s.frames.length ∧
      (handlePoseChange s u).index = s.index ∧
      (handlePoseChange s u).past = s.past ∧
      (handlePoseChange s u).future = s.future) := by
  constructor
  · intro hdev
    by_cases hidx : 0 < s.index
    · rw [if_pos hidx] at hdev
      simp only [handlePoseChange]
      rw [if_pos ⟨hrec, hcap⟩, if_pos hidx, if_pos hdev]
      exact ⟨rfl, by simp, rfl, rfl, rfl⟩
    · have hlen1 : s.frames.length = 1 := href.resolve_left hidx
      have hidx0 : s.index = 0 := Nat.eq_zero_of_not_pos hidx
      rw [if_neg hidx] at hdev
      simp only [handlePoseChange]
      rw [if_pos ⟨hrec, hcap⟩, if_neg hidx, if_pos ⟨hidx0, hlen1⟩,
        if_pos hdev]
      refine ⟨?_, by simp, ?_, rfl, rfl⟩
      · rw [hidx0]
      · rw [hidx0]
  · intro hdev
    by_cases hidx : 0 < s.index
    · rw [if_pos hidx] at hdev
      simp only [handlePoseChange]
      rw [if_pos ⟨hrec, hcap⟩, if_pos hidx, if_neg (not_lt.mpr hdev)]
      exact ⟨rfl, by simp, rfl, rfl, rfl⟩
    · have hlen1 : s.frames.length = 1 := href.resolve_left hidx
      have hidx0 : s.index = 0 := Nat.eq_zero_of_not_pos hidx
      rw [if_neg hidx] at hdev
      simp only [handlePoseChange]
      rw [if_pos ⟨hrec, hcap⟩, if_neg hidx, if_pos ⟨hidx0, hlen1⟩,
        if_neg (not_lt.mpr hdev)]
      exact ⟨rfl, by simp, rfl, rfl, rfl⟩

/-- A concrete live-recording session: a single default frame with the
recording flag on. -/
def recordingStart : AppSt := ⟨[DEFAULT_POSE], 0, [], [], false, true⟩

/-- An edit pushing the torso angle 22.6 degrees away from the default. -/
def overUpdate : PoseUpdate := { torso := some 202.6 }

/-- An edit pushing the torso angle 22.4 degrees away from the default. -/
def underUpdate : PoseUpdate := { torso := some 202.4 }

/-- C6 witness: against the threshold 22.5, an edit with deviation 22.6
appends exactly one frame and advances the index, while an edit with
deviation 22.4 leaves the frame count and index unchanged. -/
theorem autoRecord_threshold_spec_witness :
    RECORDING_THRESHOLD <
      getMaxPoseDeviation (mergePose DEFAULT_POSE overUpdate) DEFAULT_POSE ∧
    (handlePoseChange recordingStart overUpdate).frames.length = 2 ∧
    (handlePoseChange recordingStart overUpdate).index = 1 ∧
    getMaxPoseDeviation (mergePose DEFAULT_POSE underUpdate) DEFAULT_POSE ≤
      RECORDING_THRESHOLD ∧
    (handlePoseChange recordingStart underUpdate).frames.length = 1 ∧
    (handlePoseChange recordingStart underUpdate).index = 0 := by
  have hdev1 : RECORDING_THRESHOLD <
      getMaxPoseDeviation (mergePose DEFAULT_POSE overUpdate)
        DEFAULT_POSE := by
    simp [getMaxPoseDeviation, mergePose, overUpdate, DEFAULT_POSE,
      RECORDING_THRESHOLD]
    norm_num [abs_of_nonneg]
  have hdev2 : getMaxPoseDeviation (mergePose DEFAULT_POSE underUpdate)
      DEFAULT_POSE ≤ RECORDING_THRESHOLD := by
    simp [getMaxPoseDeviation, mergePose, underUpdate, DEFAULT_POSE,
      RECORDING_THRESHOLD]
    norm_num [abs_of_nonneg]
  have h1 := (autoRecord_threshold_spec recordingStart overUpdate rfl
    (by norm_num [recordingStart, MAX_FRAMES]) (Or.inr rfl)).1 hdev1
  have h2 := (autoRecord_threshold_spec recordingStart underUpdate rfl
    (by norm_num [recordingStart, MAX_FRAMES]) (Or.inr rfl)).2 hdev2
  exact ⟨hdev1, h1.2.1, h1.2.2.1, hdev2, h2.2.1, h2.2.2.1⟩

/-- C10: while recording, an edit at frame index 0 of a sequence that
already holds more than one frame never auto-commits, however large its
deviation: it only rewrites the first frame in place, leaving the frame
count, the index, both history stacks, and every other frame unchanged. -/
theorem poseEdit_at_zero_multiframe_never_commits (s : AppSt)
    (u : PoseUpdate) (hrec : s.isRecording = true) (hidx : s.index = 0)
    (hlen : 1 < s.frames.length) :
    (handlePoseChange s u).frames =
      s.frames.set 0 (mergePose (s.frames.getD 0 DEFAULT_POSE) u) ∧
    (handlePoseChange s u).frames.length = s.frames.length ∧
    (handlePoseChange s u).index = s.index ∧
    (handlePoseChange s u).past = s.past ∧
    (handlePoseChange s u).future = s.future ∧
    ∀ j, j ≠ 0 → (handlePoseChange s u).frames.getD j DEFAULT_POSE =
      s.frames.getD j DEFAULT_POSE := by
  have hnotpos : ¬ 0 < s.index := by omega
  have hnot1 : ¬ (s.index = 0 ∧ s.frames.length = 1) := by
    intro h
    omega
  have hmain : (handlePoseChange s u).frames =
      s.frames.set 0 (mergePose (s.frames.getD 0 DEFAULT_POSE) u) ∧
      (handlePoseChange s u).index = s.index ∧
      (handlePoseChange s u).past = s.past ∧
      (handlePoseChange s u).future = s.future := by
    simp only [handlePoseChange]
    by_cases hcap : s.frames.length < MAX_FRAMES
    · rw [if_pos ⟨hrec, hcap⟩, if_neg hnotpos, if_neg hnot1]
      refine ⟨?_, rfl, rfl, rfl⟩
      rw [hidx]
    · rw [if_neg (by intro h; exact hcap h.2)]
      refine ⟨?_, rfl, rfl, rfl⟩
      rw [hidx]
  refine ⟨hmain.1, ?_, hmain.2.1, hmain.2.2.1, hmain.2.2.2, ?_⟩
  · rw [hmain.1]
    simp
  · intro j hj
    rw [hmain.1]
    simp [List.getD_eq_getElem?_getD, List.getElem?_set_ne (Ne.symm hj)]

/-- A live-recording session at frame 0 of a two-frame sequence. -/
def recordingAtZero : AppSt :=
  ⟨[DEFAULT_POSE, DEFAULT_POSE], 0, [], [], false, true⟩

/-- An edit with an arbitrarily large deviation. -/
def hugeUpdate : PoseUpdate := { torso := some 999 }

/-- C10 witness: at index 0 of a two-frame recording session, an edit of
deviation far beyond the threshold still leaves the frame count at two, the
index at zero, and the second frame untouched. -/
theorem poseEdit_at_zero_multiframe_never_commits_witness :
    (handlePoseChange recordingAtZero hugeUpdate).frames.length = 2 ∧
    (handlePoseChange recordingAtZero hugeUpdate).index = 0 ∧
    (handlePoseChange recordingAtZero hugeUpdate).past = [] ∧
    (handlePoseChange recordingAtZero hugeUpdate).frames.getD 1
      DEFAULT_POSE = DEFAULT_POSE := by
  have h := poseEdit_at_zero_multiframe_never_commits recordingAtZero
    hugeUpdate rfl rfl (by norm_num [recordingAtZero])
  exact ⟨h.2.1, h.2.2.1, h.2.2.2.1, h.2.2.2.2.2 1 (by norm_num)⟩

/-- C7 counterexample: adding a frame while the current index is 0 of a
two-frame sequence appends the duplicate at the end but moves the index to
1, which is not the index 2 of the new last frame. -/
theorem handleAddFrame_counterexample :
    (handleAddFrame ⟨[DEFAULT_POSE, DEFAULT_POSE], 0, [], [], false,
      false⟩).index = 1 ∧
    (handleAddFrame ⟨[DEFAULT_POSE, DEFAULT_POSE], 0, [], [], false,
      false⟩).frames.length = 3 ∧
    (1 : ℕ) ≠ 3 - 1 := by
  have hne : ¬ MAX_FRAMES ≤
      ([DEFAULT_POSE, DEFAULT_POSE] : List Pose).length := by
    norm_num [MAX_FRAMES]
  rw [handleAddFrame, if_neg hne]
  exact ⟨rfl, by simp, by norm_num⟩

/-- C7 (amended): below capacity, the Add operation snapshots history,
appends a duplicate of the current frame to the end of the sequence and
advances the current index by one; the new index is the index of the new
last frame exactly when the current frame was already the last one. At
capacity, Add is a no-op. -/
theorem handleAddFrame_spec (s : AppSt) :
    (s.frames.length < MAX_FRAMES →
      (handleAddFrame s).frames =
        s.frames ++ [s.frames.getD s.index DEFAULT_POSE] ∧
      (handleAddFrame s).frames.length = s.frames.length + 1 ∧
      (handleAddFrame s).index = s.index + 1 ∧
      (handleAddFrame s).past = s.past ++ [⟨s.frames, s.index⟩] ∧
      (handleAddFrame s).future = [] ∧
      (0 < s.frames.length →
        ((handleAddFrame s).index = (handleAddFrame s).frames.length - 1 ↔
          s.index = s.frames.length - 1))) ∧
    (MAX_FRAMES ≤ s.frames.length → handleAddFrame s = s) := by
  constructor
  · intro h
    rw [handleAddFrame, if_neg (not_le.mpr h)]
    refine ⟨rfl, by simp, rfl, rfl, rfl, ?_⟩
    intro hpos
    simp only [List.length_append, List.length_singleton]
    omega
  · intro h
    rw [handleAddFrame, if_pos h]

/-- C7 witness: the amended Add theorem applied to a one-frame sequence:
the call succeeds, the length becomes two and the index becomes one. -/
theorem handleAddFrame_spec_witness :
    ([DEFAULT_POSE] : List Pose).length < MAX_FRAMES ∧
    (handleAddFrame ⟨[DEFAULT_POSE], 0, [], [], false,
      false⟩).frames.length = 2 ∧
    (handleAddFrame ⟨[DEFAULT_POSE], 0, [], [], false, false⟩).index = 1 := by
  have hcap : ([DEFAULT_POSE] : List Pose).length < MAX_FRAMES := by
    norm_num [MAX_FRAMES]
  have h := (handleAddFrame_spec
    ⟨[DEFAULT_POSE], 0, [], [], false, false⟩).1 hcap
  exact ⟨hcap, h.2.1, h.2.2.1⟩

/-! The playback scheduler from the animation-loop effect of the App
component. -/

/-- The scheduler state held by the animation loop: the previous tick
timestamp, the elapsed-time accumulator, the current frame index and the
interpolated pose shown while tweening. -/
structure SchedState where
  lastTime : ℝ
  acc : ℝ
  idx : ℕ
  interp : Option Pose

/-- The frame duration 1000 / fps used by the loop. -/
def FRAME_DURATION (fps : ℝ) : ℝ := 1000 / fps

/-- The JavaScript remainder a % b for the nonnegative operands used by the
loop: a - b * floor (a / b). -/
def jsMod (a b : ℝ) : ℝ := a - b * ⌊a / b⌋

/-- Starting playback, as in the effect body: reset the last-tick timestamp
to now and seed the accumulator with currentFrameIndex * FRAME_DURATION. -/
def startPlayback (now fps : ℝ) (s : SchedState) : SchedState :=
  { s with lastTime := now, acc := (s.idx : ℝ) * FRAME_DURATION fps }

open Classical in
/-- One animation-loop tick: accumulate the delta time; in tweened mode
derive the fractional frame position from the wrapped global time and show
the interpolation of the surrounding frame pair; in stepped mode advance
the index by one modulo the frame count whenever a full frame duration has
accumulated. -/
def tick (frames : List Pose) (fps : ℝ) (isPlaying isTweening : Bool)
    (currentTime : ℝ) (s : SchedState) : SchedState :=
  let deltaTime := currentTime - s.lastTime
  if isPlaying then
    if isTweening then
      let acc := s.acc + deltaTime
      let totalDuration := (frames.length : ℝ) * FRAME_DURATION fps
      let globalTime := jsMod acc totalDuration
      let exactFrame := globalTime / FRAME_DURATION fps
      let frameIndex := (⌊exactFrame⌋).toNat
      let nextFrameIndex := (frameIndex + 1) % frames.length
      let t := exactFrame - (frameIndex : ℝ)
      { lastTime := currentTime, acc := acc, idx := frameIndex
        interp := some (interpolatePose (frames.getD frameIndex DEFAULT_POSE)
          (frames.getD nextFrameIndex DEFAULT_POSE) t) }
    else
      let acc := s.acc + deltaTime
      if FRAME_DURATION fps ≤ acc then
        { lastTime := currentTime, acc := 0,
          idx := (s.idx + 1) % frames.length, interp := s.interp }
      else
        { lastTime := currentTime, acc := acc, idx := s.idx,
          interp := s.interp }
  else
    { s with lastTime := currentTime }

/-- C8: starting playback resets the last-tick timestamp to now and seeds
the accumulator with currentFrameIndex * (1000 / fps), so the first tick
resumes from the visually-selected frame rather than frame 0: in tweened
mode the first tick keeps the selected index and displays the interpolation
of the selected frame with its successor, and in stepped mode the first
advance, when the seeded accumulator already covers a frame duration, goes
from the selected index to its successor modulo the frame count. -/
theorem playback_seed_resumes_from_selected (frames : List Pose)
    (fps now dt : ℝ) (s : SchedState) (hfps : 0 < fps)
    (hidx : s.idx < frames.length) (hdt0 : 0 ≤ dt)
    (hdt : dt < FRAME_DURATION fps) :
    (startPlayback now fps s).lastTime = now ∧
    (startPlayback now fps s).acc = (s.idx : ℝ) * (1000 / fps) ∧
    (tick frames fps true true (now + dt) (startPlayback now fps s)).idx =
      s.idx ∧
    (tick frames fps true true (now + dt) (startPlayback now fps s)).interp =
      some (interpolatePose (frames.getD s.idx DEFAULT_POSE)
        (frames.getD ((s.idx + 1) % frames.length) DEFAULT_POSE)
        (dt / FRAME_DURATION fps)) ∧
    (tick frames fps true false (now + dt) (startPlayback now fps s)).idx =
      (if FRAME_DURATION fps ≤ (s.idx : ℝ) * FRAME_DURATION fps + dt then
        (s.idx + 1) % frames.length else s.idx) := by
  have hFD : 0 < FRAME_DURATION fps := by
    rw [FRAME_DURATION]
    positivity
  have hn : 0 < frames.length := Nat.pos_of_ne_zero (by omega)
  have hdelta : now + dt - now = dt := by ring
  have hacc : (s.idx : ℝ) * FRAME_DURATION fps + dt <
      (frames.length : ℝ) * FRAME_DURATION fps := by
    have h1 : (s.idx : ℝ) + 1 ≤ (frames.length : ℝ) := by
      exact_mod_cast hidx
    nlinarith
  have hacc0 : 0 ≤ (s.idx : ℝ) * FRAME_DURATION fps + dt := by positivity
  have htot : 0 < (frames.length : ℝ) * FRAME_DURATION fps := by positivity
  have hmod : jsMod ((s.idx : ℝ) * FRAME_DURATION fps + dt)
      ((frames.length : ℝ) * FRAME_DURATION fps) =
      (s.idx : ℝ) * FRAME_DURATION fps + dt := by
    rw [jsMod]
    have hfloor : ⌊((s.idx : ℝ) * FRAME_DURATION fps + dt) /
        ((frames.length : ℝ) * FRAME_DURATION fps)⌋ = 0 := by
      rw [Int.floor_eq_zero_iff]
      constructor
      · positivity
      · rw [div_lt_one htot]
        exact hacc
    rw [hfloor]
    ring
  have hexact : ((s.idx : ℝ) * FRAME_DURATION fps + dt) /
      FRAME_DURATION fps = dt / FRAME_DURATION fps + (s.idx : ℕ) := by
    field_simp
    ring
  have hfrac : ⌊dt / FRAME_DURATION fps⌋ = 0 := by
    rw [Int.floor_eq_zero_iff]
    constructor
    · positivity
    · rw [div_lt_one hFD]
      exact hdt
  have hfloorIdx : ⌊((s.idx : ℝ) * FRAME_DURATION fps + dt) /
      FRAME_DURATION fps⌋ = (s.idx : ℤ) := by
    rw [hexact, Int.floor_add_nat, hfrac]
    simp
  refine ⟨rfl, rfl, ?_, ?_, ?_⟩
  · simp only [tick, startPlayback, if_pos, hdelta]
    rw [hmod, hfloorIdx]
    simp
  · simp only [tick, startPlayback, if_pos]
    rw [show now + dt - now = dt by ring, hmod, hfloorIdx]
    have ht : ((s.idx : ℝ) * FRAME_DURATION fps + dt) / FRAME_DURATION fps -
        (((s.idx : ℤ).toNat : ℕ) : ℝ) = dt / FRAME_DURATION fps := by
      rw [hexact]
      simp
    rw [ht]
    simp
  · simp only [tick, startPlayback, hdelta, if_pos, Bool.false_eq_true,
      if_false]
    split <;> rfl

/-- C8 witness: the playback-seeding theorem applied to a three-frame
sequence at 10 frames per second with selected index 1 and a 50 ms first
tick: the accumulator is seeded with one frame duration, the tweened first
tick keeps index 1, and the stepped first tick advances from index 1. -/
theorem playback_seed_resumes_from_selected_witness :
    (50 : ℝ) < FRAME_DURATION 10 ∧
    (startPlayback 5 10 ⟨0, 0, 1, none⟩).acc = ((1 : ℕ) : ℝ) * (1000 / 10) ∧
    (tick [DEFAULT_POSE, DEFAULT_POSE, DEFAULT_POSE] 10 true true (5 + 50)
      (startPlayback 5 10 ⟨0, 0, 1, none⟩)).idx = 1 ∧
    (tick [DEFAULT_POSE, DEFAULT_POSE, DEFAULT_POSE] 10 true false (5 + 50)
      (startPlayback 5 10 ⟨0, 0, 1, none⟩)).idx =
      (if FRAME_DURATION 10 ≤ ((1 : ℕ) : ℝ) * FRAME_DURATION 10 + 50 then
        (1 + 1) % 3 else 1) := by
  have h := playback_seed_resumes_from_selected
    [DEFAULT_POSE, DEFAULT_POSE, DEFAULT_POSE] 10 5 50 ⟨0, 0, 1, none⟩
    (by norm_num) (by norm_num) (by norm_num)
    (by rw [FRAME_DURATION]; norm_num)
  exact ⟨by rw [FRAME_DURATION]; norm_num, h.2.1, h.2.2.1, h.2.2.2.2⟩
